import Mathlib

/-!
Verification of the two analytical engines of NYCHA QualityGuard Pro:
the rework-risk scorer (`backend/services/ai/rework_predictor_service.py`,
function `assess_risk_revised`) and the urgency classifier
(`backend/services/ai/nlp_service.py`, functions `check_text_for_urgency`
and `flag_urgent_complaints`), together with the ranking step of the daily
briefing agent (`backend/agents/daily_briefing_agent.py`).

Strings are modelled as Lean `String`/`List Char`; Python float scores are
modelled as exact rationals (`ℚ`); a pandas cell that is missing or NaN is
modelled as `Option.none`.
-/

namespace QualityGuard

/-! ## Generic string helpers (Python `in`, `str.lower`, regex `\b`) -/

/-- Python substring containment `pat in t`, over character lists:
some index of `t` starts an occurrence of `pat`. -/
def containsSub (t pat : List Char) : Bool :=
  (List.range (t.length + 1)).any fun i => (t.drop i).take pat.length == pat

/-- Python `text.lower()`, over the characters of a string (ASCII case fold,
which covers the repository's vocabulary). -/
def lowerList (s : String) : List Char :=
  s.toList.map Char.toLower

/-- word characters of the regex class `\w` (`[a-zA-Z0-9_]`). -/
def isWordChar (c : Char) : Bool :=
  c.isAlphanum || c == '_'

/-- whether the character at index `i` of `t` is a word character
(out-of-range counts as a non-word character). -/
def wordAt (t : List Char) (i : Nat) : Bool :=
  match t[i]? with
  | some c => isWordChar c
  | none => false

/-- regex `\b` at position `i` of `t`: exactly one of the two adjacent
positions holds a word character. -/
def wordBoundary (t : List Char) (i : Nat) : Bool :=
  (match i with
   | 0 => false
   | j + 1 => wordAt t j) != wordAt t i

/-- a whole-word occurrence of `pat` at position `i` of `t`:
the characters match and `\b` holds on both ends, as in the source regex
`r'\b' + re.escape(keyword) + r'\b'`. -/
def matchAt (t pat : List Char) (i : Nat) : Bool :=
  ((t.drop i).take pat.length == pat) && wordBoundary t i &&
    wordBoundary t (i + pat.length)

/-- Python `re.search` of `\b pat \b` over `t`: some position matches. -/
def searchWholeWord (t pat : List Char) : Bool :=
  (List.range (t.length + 1)).any fun i => matchAt t pat i

/-! ## Rework-risk scorer (`rework_predictor_service.assess_risk_revised`) -/

/-- an enriched work order row as consumed by `assess_risk_revised`:
`asset_age_at_wo` is `none` when the asset join failed (NaN age),
`resolution_text_simulated` is `none` when the field is absent,
`contractor_rework_propensity` is `none` when the contractor join failed
or no contractor is assigned (NaN propensity). -/
structure EnrichedWorkOrder where
  asset_age_at_wo : Option Int
  resolution_text_simulated : Option String
  contractor_rework_propensity : Option ℚ

/-- the output record of the risk scorer: `predicted_rework_risk_score` and
`predicted_risk_factors` of the source, named as in the spec. -/
structure RiskAssessment where
  risk_score : ℚ
  risk_factors : List String
deriving DecidableEq

/-- the lowercased resolution text of a row:
`str(row.get('resolution_text_simulated', '')).lower()`. A missing field
yields the empty string (a NaN cell stringifies to `'nan'`, which contains
none of the rule keywords, so it is behaviourally identical to `''`). -/
def rowResolution (row : EnrichedWorkOrder) : List Char :=
  lowerList (row.resolution_text_simulated.getD "")

/-- condition of the quick-fix branch:
`'patch' in resolution or 'temporary' in resolution`. -/
def quickCond (r : List Char) : Bool :=
  containsSub r "patch".toList || containsSub r "temporary".toList

/-- condition of the thorough-fix branch:
`'replaced' in resolution or 'overhaul' in resolution or 'new unit installed' in resolution`. -/
def thoroughCond (r : List Char) : Bool :=
  containsSub r "replaced".toList || containsSub r "overhaul".toList ||
    containsSub r "new unit installed".toList

/-- Python `f'{p:.2f}'` for the propensity value: two fixed decimals,
rounding half up (the float binary representation makes the exact tie rule
immaterial for the values this repository formats). -/
def formatProp2 (p : ℚ) : String :=
  let n : Int := ⌊p * 100 + 1 / 2⌋
  let m : Nat := n.natAbs
  (if n < 0 then "-" else "") ++ toString (m / 100) ++ "." ++
    (if m % 100 < 10 then "0" else "") ++ toString (m % 100)

/-- the asset-age block of `assess_risk_revised` (lines 75-82):
`asset_age = row.get('asset_age_at_wo', 0)`; a NaN age (`none`) satisfies
neither comparison, exactly as NaN does in the source. -/
def ageStep (age : Option Int) (acc : ℚ × List String) : ℚ × List String :=
  match age with
  | some a =>
    if a > 15 then
      (acc.1 + 4/10, acc.2 ++ ["Old Asset (Age: " ++ toString a ++ ")"])
    else if a > 8 then
      (acc.1 + 2/10, acc.2 ++ ["Moderately Old Asset (Age: " ++ toString a ++ ")"])
    else acc
  | none => acc

/-- the resolution-text block of `assess_risk_revised` (lines 84-91). -/
def resolutionStep (r : List Char) (acc : ℚ × List String) : ℚ × List String :=
  if quickCond r then
    (acc.1 + 3/10, acc.2 ++ ["Quick Fix Indicated"])
  else if thoroughCond r then
    (acc.1 - 25/100, acc.2 ++ ["Thorough Fix Performed"])
  else acc

/-- the contractor block of `assess_risk_revised` (lines 93-101):
`pd.notnull` guards the whole block, so a `none` propensity skips it. -/
def contractorStep (prop : Option ℚ) (acc : ℚ × List String) : ℚ × List String :=
  match prop with
  | some p =>
    if p > 2/10 then
      (acc.1 + 25/100, acc.2 ++ ["High Propensity Contractor (Prop: " ++ formatProp2 p ++ ")"])
    else if p > 12/100 then
      (acc.1 + 1/10, acc.2 ++ ["Moderate Propensity Contractor (Prop: " ++ formatProp2 p ++ ")"])
    else acc
  | none => acc

/-- the accumulated (score, factors) pair of `assess_risk_revised` before
the final clamp and placeholder: base score `0.05`, then the three rule
blocks in source order. -/
def assessRaw (row : EnrichedWorkOrder) : ℚ × List String :=
  contractorStep row.contractor_rework_propensity
    (resolutionStep (rowResolution row)
      (ageStep row.asset_age_at_wo (5/100, [])))

/-- the full `assess_risk_revised`: clamp the score with
`min(max(score, 0.0), 1.0)` and substitute `['Low Base Risk']` for an empty
factor list. -/
def assess_risk_revised (row : EnrichedWorkOrder) : RiskAssessment :=
  let res := assessRaw row
  ⟨min (max res.1 0) 1, if res.2.isEmpty then ["Low Base Risk"] else res.2⟩

/-! ## Per-rule contribution views, used to state and prove the claims -/

/-- score contribution of the asset-age rule. -/
def ageDelta (age : Option Int) : ℚ :=
  match age with
  | some a => if a > 15 then 4/10 else if a > 8 then 2/10 else 0
  | none => 0

/-- factor contribution of the asset-age rule. -/
def ageFactors (age : Option Int) : List String :=
  match age with
  | some a =>
    if a > 15 then ["Old Asset (Age: " ++ toString a ++ ")"]
    else if a > 8 then ["Moderately Old Asset (Age: " ++ toString a ++ ")"]
    else []
  | none => []

/-- score contribution of the resolution-text rule. -/
def resDelta (r : List Char) : ℚ :=
  if quickCond r then 3/10 else if thoroughCond r then -(25/100) else 0

/-- factor contribution of the resolution-text rule. -/
def resFactors (r : List Char) : List String :=
  if quickCond r then ["Quick Fix Indicated"]
  else if thoroughCond r then ["Thorough Fix Performed"]
  else []

/-- score contribution of the contractor rule. -/
def propDelta (prop : Option ℚ) : ℚ :=
  match prop with
  | some p => if p > 2/10 then 25/100 else if p > 12/100 then 1/10 else 0
  | none => 0

/-- factor contribution of the contractor rule. -/
def propFactors (prop : Option ℚ) : List String :=
  match prop with
  | some p =>
    if p > 2/10 then ["High Propensity Contractor (Prop: " ++ formatProp2 p ++ ")"]
    else if p > 12/100 then ["Moderate Propensity Contractor (Prop: " ++ formatProp2 p ++ ")"]
    else []
  | none => []

/-- no rule of the scorer fires on this row. -/
def noRuleFires (row : EnrichedWorkOrder) : Prop :=
  ageFactors row.asset_age_at_wo = [] ∧
  resFactors (rowResolution row) = [] ∧
  propFactors row.contractor_rework_propensity = []

instance (row : EnrichedWorkOrder) : Decidable (noRuleFires row) := by
  unfold noRuleFires
  infer_instance

/-! ## Urgency classifier (`nlp_service.py`) -/

/-- the fixed urgency vocabulary `URGENT_KEYWORDS` of `nlp_service.py`,
in source order. -/
def URGENT_KEYWORDS : List String :=
  ["fire", "smoke", "gas leak", "carbon monoxide",
   "collapse", "unsafe", "dangerous", "hazard",
   "mold", "asbestos", "lead", "infestation",
   "no heat", "no hot water", "no water",
   "no electricity", "power outage",
   "elevator stuck", "elevator broken",
   "child", "children", "baby", "infant",
   "elderly", "senior", "disabled",
   "medical", "health", "emergency",
   "ceiling collapse", "wall collapse",
   "flood", "water damage", "leak",
   "broken window", "broken door",
   "break in", "intruder", "squatter",
   "illegal entry", "forced entry"]

/-- `check_text_for_urgency`: an all-whitespace (or empty) text returns
`(False, [])` (the source's `not text.strip()` guard); otherwise every
keyword is searched as a whole word in the lowercased text and the matched
keywords are returned in vocabulary order. -/
def check_text_for_urgency (text : String) : Bool × List String :=
  if text.toList.all Char.isWhitespace then (false, [])
  else
    let textLower := lowerList text
    let found := URGENT_KEYWORDS.filter fun kw => searchWholeWord textLower kw.toList
    (!found.isEmpty, found)

/-- one complaint row as consumed by `flag_urgent_complaints`: each of the
three designated text fields may be absent or NaN (`none`). -/
structure ComplaintRecord where
  descriptor : Option String
  complaint_type : Option String
  resolution_description : Option String

/-- the per-row output of `flag_urgent_complaints`: the added columns
`is_urgent` and `urgent_keywords_found`. -/
structure UrgencyAssessment where
  is_urgent : Bool
  urgent_keywords_found : List String
deriving DecidableEq

/-- contribution of one text column to `all_matches`: a column that is
absent or NaN is skipped (`pd.notna` guard); otherwise the matches of
`check_text_for_urgency` are appended when the flag is set. -/
def fieldMatches (f : Option String) : List String :=
  match f with
  | some s =>
    let r := check_text_for_urgency s
    if r.1 then r.2 else []
  | none => []

/-- `all_matches` accumulated over the three designated text columns in
source order (descriptor, complaint type, resolution description). -/
def rowMatches (row : ComplaintRecord) : List String :=
  fieldMatches row.descriptor ++ fieldMatches row.complaint_type ++
    fieldMatches row.resolution_description

/-- the per-row body of `flag_urgent_complaints` (lines 126-139): columns
start as `(False, [])` and are set to `(True, list(set(all_matches)))` when
any match was found. Python's `set` has no guaranteed order; `List.dedup`
models one deduplicated enumeration. -/
def flag_urgent_row (row : ComplaintRecord) : UrgencyAssessment :=
  let all := rowMatches row
  if all.isEmpty then ⟨false, []⟩ else ⟨true, all.dedup⟩

/-- `flag_urgent_complaints` over a materialized record set. -/
def flag_urgent_complaints (rows : List ComplaintRecord) : List UrgencyAssessment :=
  rows.map flag_urgent_row

/-! ## Daily briefing agent ranking (`daily_briefing_agent.py`) -/

/-- column set of the dataframe returned by
`fetch_and_process_311_data` (`data_ingestion_service.py`, lines 59-63). -/
def ingestion_columns : List String :=
  ["unique_key", "created_date", "agency", "complaint_type",
   "descriptor", "resolution_description", "incident_address",
   "borough", "bbl", "latitude", "longitude"]

/-- the two columns added by `flag_urgent_complaints`
(`nlp_service.py`, lines 119-120). -/
def flag_urgent_added_columns : List String :=
  ["is_urgent", "urgent_keywords_found"]

/-- column set of the dataframe returned by `flag_urgent_complaints`. -/
def flag_urgent_output_columns (cols : List String) : List String :=
  cols ++ flag_urgent_added_columns

/-- pandas `df.nlargest(k, col)` with the default `keep='first'`: top `k`
rows by the named column, descending, ties kept in input order (a stable
descending sort followed by `take k`); accessing a column that is not in
the dataframe raises `KeyError`, modelled as `Except.error`. -/
def nlargest_by_column (k : Nat) (cols : List String) (col : String)
    (score : UrgencyAssessment → ℚ) (rows : List UrgencyAssessment) :
    Except String (List UrgencyAssessment) :=
  if cols.contains col then
    Except.ok ((rows.mergeSort fun a b => decide (score b ≤ score a)).take k)
  else Except.error col

/-- `get_today_urgent_complaints` (`daily_briefing_agent.py`, lines 28-62):
flag the fetched complaints, then take `urgent_df.nlargest(5, 'urgency_score')`.
No code in the repository ever creates an `urgency_score` column, so there is
no real score accessor; the constant accessor below stands in a branch the
source never reaches, because pandas raises `KeyError('urgency_score')`,
which the surrounding `try/except` converts to the empty list. -/
def get_today_urgent_complaints (df : List ComplaintRecord) : List UrgencyAssessment :=
  let urgent := flag_urgent_complaints df
  match nlargest_by_column 5 (flag_urgent_output_columns ingestion_columns)
      "urgency_score" (fun _ => 0) urgent with
  | Except.ok top => top
  | Except.error _ => []

/-! ## Concrete scenario rows -/

/-- the spec's high-risk scenario row: age 24, resolution
`"temporary patch applied"`, contractor propensity 0.25. -/
def c4row : EnrichedWorkOrder :=
  ⟨some 24, some "temporary patch applied", some (25/100)⟩

/-- the spec's thorough-fix scenario row as written: age 3, resolution
`"full system recalibration"`, no contractor. -/
def c5row : EnrichedWorkOrder :=
  ⟨some 3, some "full system recalibration", none⟩

/-- the thorough-fix scenario with a resolution text that actually contains
a thorough-fix keyword. -/
def c5rowAmended : EnrichedWorkOrder :=
  ⟨some 3, some "full system overhaul", none⟩

/-- a row on which no rule fires. -/
def quietRow : EnrichedWorkOrder := ⟨some 0, some "", none⟩

/-- a mixed-case resolution containing both a quick-fix and a thorough-fix
term. -/
def mixedRow : EnrichedWorkOrder := ⟨none, some "Temporary overhaul", none⟩

/-- a resolution containing only a thorough-fix term. -/
def thoroughRow : EnrichedWorkOrder := ⟨none, some "unit replaced", none⟩

/-- a row with undefined age and only a resolution text. -/
def undefAgeRow : EnrichedWorkOrder := ⟨none, some "patch", none⟩

/-- a complaint mentioning `"gas leak"` in both the descriptor and the
resolution description. -/
def gasRow : ComplaintRecord :=
  ⟨some "gas leak in kitchen", none, some "the gas leak persists"⟩

/-- an urgent complaint fed to the briefing agent. -/
def urgentRow : ComplaintRecord := ⟨some "there was a gas leak", none, none⟩

/-! ## Theorems about the risk scorer -/

theorem ageStep_eq (age : Option Int) (s : ℚ) (f : List String) :
    ageStep age (s, f) = (s + ageDelta age, f ++ ageFactors age) := by
  cases age with
  | none => simp [ageStep, ageDelta, ageFactors]
  | some a =>
    simp only [ageStep, ageDelta, ageFactors]
    split_ifs <;> simp

theorem resolutionStep_eq (r : List Char) (s : ℚ) (f : List String) :
    resolutionStep r (s, f) = (s + resDelta r, f ++ resFactors r) := by
  simp only [resolutionStep, resDelta, resFactors]
  split_ifs <;> simp [sub_eq_add_neg]

theorem contractorStep_eq (prop : Option ℚ) (s : ℚ) (f : List String) :
    contractorStep prop (s, f) = (s + propDelta prop, f ++ propFactors prop) := by
  cases prop with
  | none => simp [contractorStep, propDelta, propFactors]
  | some p =>
    simp only [contractorStep, propDelta, propFactors]
    split_ifs <;> simp

theorem assessRaw_eq (row : EnrichedWorkOrder) :
    assessRaw row =
      (5/100 + ageDelta row.asset_age_at_wo + resDelta (rowResolution row) +
        propDelta row.contractor_rework_propensity,
       ageFactors row.asset_age_at_wo ++ resFactors (rowResolution row) ++
        propFactors row.contractor_rework_propensity) := by
  rw [assessRaw, ageStep_eq, resolutionStep_eq, contractorStep_eq]
  simp

theorem risk_score_def (row : EnrichedWorkOrder) :
    (assess_risk_revised row).risk_score = min (max (assessRaw row).1 0) 1 := rfl

theorem risk_factors_def (row : EnrichedWorkOrder) :
    (assess_risk_revised row).risk_factors =
      if (assessRaw row).2.isEmpty then ["Low Base Risk"] else (assessRaw row).2 := rfl

theorem append_head (p m q : String) (c : Char) (hp : p.data.head? = some c) :
    (p ++ m ++ q).data.head? = some c := by
  rw [String.data_append, String.data_append]
  cases hd : p.data with
  | nil => rw [hd] at hp; simp at hp
  | cons x xs => rw [hd] at hp; simpa using hp

theorem ne_of_heads {a b : String} {c d : Char} (ha : a.data.head? = some c)
    (hb : b.data.head? = some d) (hcd : c ≠ d) : a ≠ b := by
  intro he
  rw [he, hb] at ha
  exact hcd (Option.some.inj ha).symm

theorem not_mem_ageFactors (age : Option Int) :
    "Quick Fix Indicated" ∉ ageFactors age ∧
    "Thorough Fix Performed" ∉ ageFactors age := by
  cases age with
  | none => simp [ageFactors]
  | some a =>
    have h1 : ("Old Asset (Age: " ++ toString a ++ ")") ≠ "Quick Fix Indicated" :=
      ne_of_heads (append_head _ _ _ 'O' rfl) rfl (by decide)
    have h2 : ("Old Asset (Age: " ++ toString a ++ ")") ≠ "Thorough Fix Performed" :=
      ne_of_heads (append_head _ _ _ 'O' rfl) rfl (by decide)
    have h3 : ("Moderately Old Asset (Age: " ++ toString a ++ ")") ≠ "Quick Fix Indicated" :=
      ne_of_heads (append_head _ _ _ 'M' rfl) rfl (by decide)
    have h4 : ("Moderately Old Asset (Age: " ++ toString a ++ ")") ≠ "Thorough Fix Performed" :=
      ne_of_heads (append_head _ _ _ 'M' rfl) rfl (by decide)
    simp only [ageFactors]
    split_ifs
    · exact ⟨fun hm => h1 (List.mem_singleton.mp hm).symm,
        fun hm => h2 (List.mem_singleton.mp hm).symm⟩
    · exact ⟨fun hm => h3 (List.mem_singleton.mp hm).symm,
        fun hm => h4 (List.mem_singleton.mp hm).symm⟩
    · simp

theorem not_mem_propFactors (prop : Option ℚ) :
    "Quick Fix Indicated" ∉ propFactors prop ∧
    "Thorough Fix Performed" ∉ propFactors prop := by
  cases prop with
  | none => simp [propFactors]
  | some p =>
    have h1 : ("High Propensity Contractor (Prop: " ++ formatProp2 p ++ ")") ≠
        "Quick Fix Indicated" :=
      ne_of_heads (append_head _ _ _ 'H' rfl) rfl (by decide)
    have h2 : ("High Propensity Contractor (Prop: " ++ formatProp2 p ++ ")") ≠
        "Thorough Fix Performed" :=
      ne_of_heads (append_head _ _ _ 'H' rfl) rfl (by decide)
    have h3 : ("Moderate Propensity Contractor (Prop: " ++ formatProp2 p ++ ")") ≠
        "Quick Fix Indicated" :=
      ne_of_heads (append_head _ _ _ 'M' rfl) rfl (by decide)
    have h4 : ("Moderate Propensity Contractor (Prop: " ++ formatProp2 p ++ ")") ≠
        "Thorough Fix Performed" :=
      ne_of_heads (append_head _ _ _ 'M' rfl) rfl (by decide)
    simp only [propFactors]
    split_ifs
    · exact ⟨fun hm => h1 (List.mem_singleton.mp hm).symm,
        fun hm => h2 (List.mem_singleton.mp hm).symm⟩
    · exact ⟨fun hm => h3 (List.mem_singleton.mp hm).symm,
        fun hm => h4 (List.mem_singleton.mp hm).symm⟩
    · simp

theorem ageDelta_nonneg (age : Option Int) : 0 ≤ ageDelta age := by
  cases age with
  | none => simp [ageDelta]
  | some a =>
    simp only [ageDelta]
    split_ifs <;> norm_num

theorem propDelta_nonneg (prop : Option ℚ) : 0 ≤ propDelta prop := by
  cases prop with
  | none => simp [propDelta]
  | some p =>
    simp only [propDelta]
    split_ifs <;> norm_num

theorem resDelta_nonneg_of_not_thorough (r : List Char)
    (h : "Thorough Fix Performed" ∉ resFactors r) : 0 ≤ resDelta r := by
  simp only [resDelta, resFactors] at h ⊢
  split_ifs at h ⊢
  · norm_num
  · simp at h
  · norm_num

/-- C1: for every enriched work order, the returned assessment has
`0 ≤ risk_score ≤ 1` and a non-empty `risk_factors` list, and when no rule
fires the factors are exactly `["Low Base Risk"]`. -/
theorem risk_assessment_invariant (row : EnrichedWorkOrder) :
    0 ≤ (assess_risk_revised row).risk_score ∧
    (assess_risk_revised row).risk_score ≤ 1 ∧
    (assess_risk_revised row).risk_factors ≠ [] ∧
    (noRuleFires row → (assess_risk_revised row).risk_factors = ["Low Base Risk"]) := by
  refine ⟨?_, ?_, ?_, ?_⟩
  · rw [risk_score_def]
    exact le_min (le_max_right _ _) zero_le_one
  · rw [risk_score_def]
    exact min_le_right _ _
  · rw [risk_factors_def]
    split
    · simp
    · next hne => simpa [List.isEmpty_iff] using hne
  · rintro ⟨h1, h2, h3⟩
    have hnil : (assessRaw row).2 = [] := by
      rw [assessRaw_eq]
      simp [h1, h2, h3]
    rw [risk_factors_def, hnil]
    rfl

/-- C1 witness: on a concrete row where no rule fires, the factors are
exactly the placeholder. -/
theorem risk_assessment_invariant_witness :
    noRuleFires quietRow ∧
    (assess_risk_revised quietRow).risk_factors = ["Low Base Risk"] :=
  ⟨by decide, (risk_assessment_invariant quietRow).2.2.2 (by decide)⟩

/-- C2: the resolution rule is decided on the lowercased text (so matching
is case-insensitive), the quick-fix branch adds `+0.30` with factor
`"Quick Fix Indicated"`, the thorough-fix branch only fires when the
quick-fix branch does not and subtracts `0.25` with factor
`"Thorough Fix Performed"`, and the two branches are mutually exclusive
with quick-fix checked first. -/
theorem resolution_text_rule (row : EnrichedWorkOrder) :
    (quickCond (rowResolution row) = true →
      "Quick Fix Indicated" ∈ (assess_risk_revised row).risk_factors ∧
      "Thorough Fix Performed" ∉ (assess_risk_revised row).risk_factors ∧
      (assessRaw row).1 = 5/100 + ageDelta row.asset_age_at_wo + 3/10 +
        propDelta row.contractor_rework_propensity) ∧
    (quickCond (rowResolution row) = false → thoroughCond (rowResolution row) = true →
      "Thorough Fix Performed" ∈ (assess_risk_revised row).risk_factors ∧
      "Quick Fix Indicated" ∉ (assess_risk_revised row).risk_factors ∧
      (assessRaw row).1 = 5/100 + ageDelta row.asset_age_at_wo - 25/100 +
        propDelta row.contractor_rework_propensity) ∧
    (∀ other : EnrichedWorkOrder, other.asset_age_at_wo = row.asset_age_at_wo →
      other.contractor_rework_propensity = row.contractor_rework_propensity →
      rowResolution other = rowResolution row →
      assess_risk_revised other = assess_risk_revised row) := by
  refine ⟨?_, ?_, ?_⟩
  · intro hq
    have hrf : resFactors (rowResolution row) = ["Quick Fix Indicated"] := by
      simp [resFactors, hq]
    have hrd : resDelta (rowResolution row) = 3/10 := by
      simp [resDelta, hq]
    have h2 : (assessRaw row).2 =
        ageFactors row.asset_age_at_wo ++ ["Quick Fix Indicated"] ++
          propFactors row.contractor_rework_propensity := by
      rw [assessRaw_eq]
      simp [hrf]
    have hne : (assessRaw row).2.isEmpty = false := by
      rw [h2]
      simp
    have hfac : (assess_risk_revised row).risk_factors = (assessRaw row).2 := by
      rw [risk_factors_def, hne]
      rfl
    refine ⟨?_, ?_, ?_⟩
    · rw [hfac, h2]
      simp [List.mem_append]
    · rw [hfac, h2]
      intro hm
      rcases List.mem_append.mp hm with hm | hm
      · rcases List.mem_append.mp hm with hm | hm
        · exact (not_mem_ageFactors row.asset_age_at_wo).2 hm
        · simp at hm
      · exact (not_mem_propFactors row.contractor_rework_propensity).2 hm
    · rw [assessRaw_eq]
      dsimp only
      rw [hrd]
  · intro hq ht
    have hrf : resFactors (rowResolution row) = ["Thorough Fix Performed"] := by
      simp [resFactors, hq, ht]
    have hrd : resDelta (rowResolution row) = -(25/100) := by
      simp [resDelta, hq, ht]
    have h2 : (assessRaw row).2 =
        ageFactors row.asset_age_at_wo ++ ["Thorough Fix Performed"] ++
          propFactors row.contractor_rework_propensity := by
      rw [assessRaw_eq]
      simp [hrf]
    have hne : (assessRaw row).2.isEmpty = false := by
      rw [h2]
      simp
    have hfac : (assess_risk_revised row).risk_factors = (assessRaw row).2 := by
      rw [risk_factors_def, hne]
      rfl
    refine ⟨?_, ?_, ?_⟩
    · rw [hfac, h2]
      simp [List.mem_append]
    · rw [hfac, h2]
      intro hm
      rcases List.mem_append.mp hm with hm | hm
      · rcases List.mem_append.mp hm with hm | hm
        · exact (not_mem_ageFactors row.asset_age_at_wo).1 hm
        · simp at hm
      · exact (not_mem_propFactors row.contractor_rework_propensity).1 hm
    · rw [assessRaw_eq]
      dsimp only
      rw [hrd]
      ring
  · intro other h1 h2 h3
    have hraw : assessRaw other = assessRaw row := by
      rw [assessRaw, assessRaw, h1, h2, h3]
    simp only [assess_risk_revised, hraw]

/-- C2 witness: a mixed-case text containing both a quick-fix and a
thorough-fix term takes only the quick-fix branch; a text with only a
thorough-fix term takes the thorough branch. -/
theorem resolution_text_rule_witness :
    quickCond (rowResolution mixedRow) = true ∧
    thoroughCond (rowResolution mixedRow) = true ∧
    "Quick Fix Indicated" ∈ (assess_risk_revised mixedRow).risk_factors ∧
    "Thorough Fix Performed" ∉ (assess_risk_revised mixedRow).risk_factors ∧
    quickCond (rowResolution thoroughRow) = false ∧
    "Thorough Fix Performed" ∈ (assess_risk_revised thoroughRow).risk_factors :=
  ⟨by decide, by decide,
   ((resolution_text_rule mixedRow).1 (by decide)).1,
   ((resolution_text_rule mixedRow).1 (by decide)).2.1,
   by decide,
   ((resolution_text_rule thoroughRow).2.1 (by decide) (by decide)).1⟩

/-- C4: the spec's high-risk scenario: age 24, resolution
`"temporary patch applied"`, propensity 0.25 give score 1.0 (clamped) and
the three factors in rule-evaluation order. -/
theorem scenario_high_risk :
    (assess_risk_revised c4row).risk_score = 1 ∧
    (assess_risk_revised c4row).risk_factors =
      ["Old Asset (Age: 24)", "Quick Fix Indicated",
       "High Propensity Contractor (Prop: 0.25)"] := by
  have hfl : (⌊(25/100 : ℚ) * 100 + 1/2⌋ : ℤ) = 25 := by
    rw [Int.floor_eq_iff]
    norm_num
  have hfmt : formatProp2 (25/100) = "0.25" := by
    simp only [formatProp2, hfl]
    decide
  have hq : quickCond (rowResolution c4row) = true := by decide
  have hrd : resDelta (rowResolution c4row) = 3/10 := by simp [resDelta, hq]
  have hrf : resFactors (rowResolution c4row) = ["Quick Fix Indicated"] := by
    simp [resFactors, hq]
  have had : ageDelta (some (24 : Int)) = 4/10 := by
    simp only [ageDelta]
    rw [if_pos (by decide : (24 : ℤ) > 15)]
  have haf : ageFactors (some (24 : Int)) = ["Old Asset (Age: 24)"] := by
    simp only [ageFactors]
    rw [if_pos (by decide : (24 : ℤ) > 15)]
    decide
  have hpd : propDelta (some ((25 : ℚ)/100)) = 25/100 := by
    simp only [propDelta]
    rw [if_pos (by norm_num : (25 : ℚ)/100 > 2/10)]
  have hpf : propFactors (some ((25 : ℚ)/100)) =
      ["High Propensity Contractor (Prop: 0.25)"] := by
    simp only [propFactors]
    rw [if_pos (by norm_num : (25 : ℚ)/100 > 2/10), hfmt]
    decide
  constructor
  · rw [risk_score_def, assessRaw_eq,
      show c4row.asset_age_at_wo = some 24 from rfl,
      show c4row.contractor_rework_propensity = some (25/100) from rfl,
      had, hrd, hpd]
    dsimp only
    norm_num [min_def, max_def]
  · rw [risk_factors_def, assessRaw_eq,
      show c4row.asset_age_at_wo = some 24 from rfl,
      show c4row.contractor_rework_propensity = some (25/100) from rfl,
      haf, hrf, hpf]
    dsimp only
    decide

/-- C5 as stated is false on the code: the resolution
`"full system recalibration"` contains no thorough-fix keyword, so the
factors are the placeholder, not `["Thorough Fix Performed"]`. -/
theorem scenario_thorough_counterexample :
    ¬ ((assess_risk_revised c5row).risk_score = 0 ∧
       (assess_risk_revised c5row).risk_factors = ["Thorough Fix Performed"]) := by
  rintro ⟨-, hfac⟩
  have hlow : (assess_risk_revised c5row).risk_factors = ["Low Base Risk"] := by decide
  rw [hlow] at hfac
  exact absurd hfac (by decide)

/-- C5 amended: with a resolution that contains a thorough-fix keyword
(`"full system overhaul"`), age 3 and no contractor give score
`max(0.05 - 0.25, 0) = 0` and factors exactly `["Thorough Fix Performed"]`. -/
theorem scenario_thorough_amended :
    (assess_risk_revised c5rowAmended).risk_score = 0 ∧
    (assess_risk_revised c5rowAmended).risk_factors = ["Thorough Fix Performed"] := by
  have hq : quickCond (rowResolution c5rowAmended) = false := by decide
  have ht : thoroughCond (rowResolution c5rowAmended) = true := by decide
  have hrd : resDelta (rowResolution c5rowAmended) = -(25/100) := by
    simp [resDelta, hq, ht]
  have had : ageDelta (some (3 : Int)) = 0 := by
    simp only [ageDelta]
    rw [if_neg (by decide : ¬((3 : ℤ) > 15)), if_neg (by decide : ¬((3 : ℤ) > 8))]
  constructor
  · rw [risk_score_def, assessRaw_eq,
      show c5rowAmended.asset_age_at_wo = some 3 from rfl,
      show c5rowAmended.contractor_rework_propensity = none from rfl,
      had, hrd, show propDelta none = 0 from rfl]
    dsimp only
    norm_num [min_def, max_def]
  · decide

/-- C7: a row with an undefined asset age is scored by the resolution and
contractor rules alone, and a row with an undefined propensity is scored
by the age and resolution rules alone; the scorer is a total function. -/
theorem undefined_inputs_skip_rules (row : EnrichedWorkOrder) :
    (row.asset_age_at_wo = none →
      (assessRaw row).1 = 5/100 + resDelta (rowResolution row) +
        propDelta row.contractor_rework_propensity ∧
      (assessRaw row).2 = resFactors (rowResolution row) ++
        propFactors row.contractor_rework_propensity) ∧
    (row.contractor_rework_propensity = none →
      (assessRaw row).1 = 5/100 + ageDelta row.asset_age_at_wo +
        resDelta (rowResolution row) ∧
      (assessRaw row).2 = ageFactors row.asset_age_at_wo ++
        resFactors (rowResolution row)) := by
  constructor
  · intro h
    rw [assessRaw_eq, h]
    constructor
    · dsimp only
      simp [ageDelta]
    · dsimp only
      simp [ageFactors]
  · intro h
    rw [assessRaw_eq, h]
    constructor
    · dsimp only
      simp [propDelta]
    · dsimp only
      simp [propFactors]

/-- C7 witness: a concrete row with undefined age and no contractor. -/
theorem undefined_inputs_skip_rules_witness :
    ((assessRaw undefAgeRow).1 = 5/100 + resDelta (rowResolution undefAgeRow) +
      propDelta undefAgeRow.contractor_rework_propensity ∧
     (assessRaw undefAgeRow).2 = resFactors (rowResolution undefAgeRow) ++
      propFactors undefAgeRow.contractor_rework_propensity) ∧
    ((assessRaw undefAgeRow).1 = 5/100 + ageDelta undefAgeRow.asset_age_at_wo +
      resDelta (rowResolution undefAgeRow) ∧
     (assessRaw undefAgeRow).2 = ageFactors undefAgeRow.asset_age_at_wo ++
      resFactors (rowResolution undefAgeRow)) :=
  ⟨(undefined_inputs_skip_rules undefAgeRow).1 rfl,
   (undefined_inputs_skip_rules undefAgeRow).2 rfl⟩

/-- C10: whenever `"Thorough Fix Performed"` is not among the returned
factors, every rule contribution is non-negative, so the base score `0.05`
is a floor on the clamped score. -/
theorem base_score_floor (row : EnrichedWorkOrder)
    (h : "Thorough Fix Performed" ∉ (assess_risk_revised row).risk_factors) :
    5/100 ≤ (assess_risk_revised row).risk_score := by
  have hraw : "Thorough Fix Performed" ∉ (assessRaw row).2 := by
    intro hm
    apply h
    rw [risk_factors_def]
    have hne : (assessRaw row).2.isEmpty = false := by
      cases hE : (assessRaw row).2 with
      | nil => rw [hE] at hm; simp at hm
      | cons x xs => rfl
    rw [hne]
    simpa using hm
  have hres : 0 ≤ resDelta (rowResolution row) := by
    apply resDelta_nonneg_of_not_thorough
    intro hm
    apply hraw
    rw [assessRaw_eq]
    dsimp only
    simp [List.mem_append, hm]
  have hs : 5/100 ≤ (assessRaw row).1 := by
    rw [assessRaw_eq]
    dsimp only
    have h1 := ageDelta_nonneg row.asset_age_at_wo
    have h2 := propDelta_nonneg row.contractor_rework_propensity
    linarith
  rw [risk_score_def]
  exact le_min (le_trans hs (le_max_left _ _)) (by norm_num)

/-- C10 witness: a concrete row without the thorough-fix factor has score
at least 0.05. -/
theorem base_score_floor_witness :
    "Thorough Fix Performed" ∉ (assess_risk_revised quietRow).risk_factors ∧
    5/100 ≤ (assess_risk_revised quietRow).risk_score :=
  ⟨by decide, base_score_floor quietRow (by decide)⟩

/-! ## Theorems about the urgency classifier -/

theorem wordBoundary_zero (t : List Char) :
    wordBoundary t 0 = (false != wordAt t 0) := rfl

theorem wordBoundary_succ (t : List Char) (j : Nat) :
    wordBoundary t (j + 1) = (wordAt t j != wordAt t (j + 1)) := rfl

theorem wordAt_eq_of_getElem {t : List Char} {i : Nat} {c : Char}
    (h : t[i]? = some c) : wordAt t i = isWordChar c := by
  simp [wordAt, h]

theorem wordAt_eq_of_none {t : List Char} {i : Nat}
    (h : t[i]? = none) : wordAt t i = false := by
  simp [wordAt, h]

theorem take_succ_getLast {α : Type} (l : List α) (j : Nat) (h : j < l.length) :
    (l.take (j + 1)).getLast? = l[j]? := by
  rw [List.getLast?_eq_getElem?]
  have hlen : (l.take (j + 1)).length = j + 1 := by
    rw [List.length_take]
    omega
  rw [hlen]
  simp only [Nat.add_sub_cancel]
  rw [List.getElem?_take_of_lt (by omega : j < j + 1)]

/-- C3: membership of a keyword in the classifier output comes from a
whole-word search in the lowercased text; the whole-word search succeeds
exactly when the keyword occurs bounded by non-word characters (or text
edges) on both sides; `"firefly alarm"` does not flag `"fire"`, while
`"there was a fire"` does, independently of letter case. -/
theorem whole_word_matching :
    (∀ (text kw : String), kw ∈ (check_text_for_urgency text).2 →
      kw ∈ URGENT_KEYWORDS ∧ searchWholeWord (lowerList text) kw.toList = true) ∧
    (∀ (t pat : List Char) (c d : Char), pat.head? = some c → pat.getLast? = some d →
      isWordChar c = true → isWordChar d = true →
      (searchWholeWord t pat = true ↔
        ∃ pre post, t = pre ++ pat ++ post ∧
          (∀ x, pre.getLast? = some x → isWordChar x = false) ∧
          (∀ x, post.head? = some x → isWordChar x = false))) ∧
    check_text_for_urgency "firefly alarm" = (false, []) ∧
    (check_text_for_urgency "there was a fire").1 = true ∧
    "fire" ∈ (check_text_for_urgency "there was a fire").2 ∧
    (check_text_for_urgency "THERE WAS a FiRe").2 =
      (check_text_for_urgency "there was a fire").2 := by
  refine ⟨?_, ?_, by decide, by decide, by decide, by decide⟩
  · intro text kw hm
    by_cases hw : text.toList.all Char.isWhitespace = true
    · rw [check_text_for_urgency, if_pos hw] at hm
      simp at hm
    · rw [check_text_for_urgency, if_neg hw] at hm
      dsimp only at hm
      exact ⟨(List.mem_filter.mp hm).1, (List.mem_filter.mp hm).2⟩
  · intro t pat c d hc hd hcw hdw
    have hplen : 1 ≤ pat.length := by
      cases pat with
      | nil => simp at hc
      | cons y ys => simp
    constructor
    · intro h
      rw [searchWholeWord, List.any_eq_true] at h
      obtain ⟨i, hir, hmm⟩ := h
      rw [List.mem_range] at hir
      simp only [matchAt, Bool.and_eq_true] at hmm
      obtain ⟨⟨hA, hB⟩, hC⟩ := hmm
      have hsub : (t.drop i).take pat.length = pat := by simpa using hA
      have hmin : min pat.length (t.length - i) = pat.length := by
        have := congrArg List.length hsub
        rwa [List.length_take, List.length_drop] at this
      have hile : i + pat.length ≤ t.length := by omega
      have hdrop : t.drop i = pat ++ t.drop (i + pat.length) := by
        conv_lhs => rw [← List.take_append_drop pat.length (t.drop i)]
        rw [hsub, List.drop_drop]
      have hdecomp : t = t.take i ++ pat ++ t.drop (i + pat.length) := by
        conv_lhs => rw [← List.take_append_drop i t]
        rw [hdrop, List.append_assoc]
      have hti : t[i]? = some c := by
        have h0 := List.getElem?_drop t i 0
        rw [Nat.add_zero] at h0
        rw [← h0, hdrop, List.getElem?_append,
          if_pos (by omega : 0 < pat.length), ← List.head?_eq_getElem?]
        exact hc
      have hwAtI : wordAt t i = true := by
        rw [wordAt_eq_of_getElem hti]
        exact hcw
      refine ⟨t.take i, t.drop (i + pat.length), hdecomp, ?_, ?_⟩
      · intro x hx
        cases i with
        | zero => simp at hx
        | succ j =>
          have hj : j < t.length := by omega
          rw [take_succ_getLast t j hj] at hx
          rw [wordBoundary_succ, hwAtI] at hB
          have hwj : wordAt t j = false := by
            cases hv : wordAt t j
            · rfl
            · rw [hv] at hB
              simp at hB
          rw [wordAt_eq_of_getElem hx] at hwj
          exact hwj
      · intro x hx
        have hxg : t[i + pat.length]? = some x := by
          have h0 := List.getElem?_drop t (i + pat.length) 0
          rw [Nat.add_zero] at h0
          rw [← h0, ← List.head?_eq_getElem?]
          exact hx
        have hlast : t[i + pat.length - 1]? = some d := by
          have he : i + pat.length - 1 = i + (pat.length - 1) := by omega
          have h1 := List.getElem?_drop t i (pat.length - 1)
          rw [he, ← h1, hdrop, List.getElem?_append,
            if_pos (by omega : pat.length - 1 < pat.length),
            ← List.getLast?_eq_getElem?]
          exact hd
        obtain ⟨k, hk⟩ : ∃ k, i + pat.length = k + 1 :=
          ⟨i + pat.length - 1, by omega⟩
        rw [hk, wordBoundary_succ] at hC
        have hwk : wordAt t k = true := by
          have hke : k = i + pat.length - 1 := by omega
          rw [hke, wordAt_eq_of_getElem hlast]
          exact hdw
        rw [hwk] at hC
        have hwk1 : wordAt t (k + 1) = false := by
          cases hv : wordAt t (k + 1)
          · rfl
          · rw [hv] at hC
            simp at hC
        rw [← hk, wordAt_eq_of_getElem hxg] at hwk1
        exact hwk1
    · rintro ⟨pre, post, rfl, hpre, hpost⟩
      rw [searchWholeWord, List.any_eq_true]
      have hassoc : pre ++ pat ++ post = pre ++ (pat ++ post) :=
        List.append_assoc pre pat post
      have hdropped : (pre ++ pat ++ post).drop pre.length = pat ++ post := by
        rw [hassoc]
        exact List.drop_left pre (pat ++ post)
      have hsub : ((pre ++ pat ++ post).drop pre.length).take pat.length = pat := by
        rw [hdropped]
        exact List.take_left pat post
      refine ⟨pre.length, ?_, ?_⟩
      · rw [List.mem_range, List.length_append, List.length_append]
        omega
      · have hgetI : (pre ++ pat ++ post)[pre.length]? = some c := by
          have h0 := List.getElem?_drop (pre ++ pat ++ post) pre.length 0
          rw [Nat.add_zero] at h0
          rw [← h0, hdropped, List.getElem?_append,
            if_pos (by omega : 0 < pat.length), ← List.head?_eq_getElem?]
          exact hc
        have hwI : wordAt (pre ++ pat ++ post) pre.length = true := by
          rw [wordAt_eq_of_getElem hgetI]
          exact hcw
        have hbI : wordBoundary (pre ++ pat ++ post) pre.length = true := by
          rcases Nat.eq_zero_or_pos pre.length with hz | hpos
          · rw [hz] at hwI ⊢
            rw [wordBoundary_zero, hwI]
            rfl
          · obtain ⟨j, hlen⟩ : ∃ j, pre.length = j + 1 := ⟨pre.length - 1, by omega⟩
            have hpne : pre ≠ [] := by
              intro he
              rw [he] at hpos
              simp at hpos
            obtain ⟨x0, hx0⟩ : ∃ x0, pre.getLast? = some x0 := by
              cases hgl : pre.getLast? with
              | none => exact absurd (List.getLast?_eq_none_iff.mp hgl) hpne
              | some z => exact ⟨z, rfl⟩
            have hx0w : isWordChar x0 = false := hpre x0 hx0
            have hgy : (pre ++ pat ++ post)[j]? = some x0 := by
              have h1 : (pre ++ pat ++ post)[j]? = pre[j]? := by
                rw [hassoc, List.getElem?_append,
                  if_pos (by omega : j < pre.length)]
              rw [h1, ← hx0, List.getLast?_eq_getElem?, hlen]
              norm_num
            have hwI2 : wordAt (pre ++ pat ++ post) (j + 1) = true := by
              rw [← hlen]
              exact hwI
            rw [hlen, wordBoundary_succ, wordAt_eq_of_getElem hgy, hx0w, hwI2]
            rfl
        have hbE : wordBoundary (pre ++ pat ++ post) (pre.length + pat.length) = true := by
          have hlastpat : (pre ++ pat ++ post)[pre.length + pat.length - 1]? = some d := by
            have he : pre.length + pat.length - 1 = pre.length + (pat.length - 1) := by
              omega
            have h1 := List.getElem?_drop (pre ++ pat ++ post) pre.length (pat.length - 1)
            rw [he, ← h1, hdropped, List.getElem?_append,
              if_pos (by omega : pat.length - 1 < pat.length),
              ← List.getLast?_eq_getElem?]
            exact hd
          have hposthead : (pre ++ pat ++ post)[pre.length + pat.length]? = post.head? := by
            have h1 := List.getElem?_drop (pre ++ pat ++ post) pre.length pat.length
            rw [← h1, hdropped, List.getElem?_append_right (le_refl pat.length),
              Nat.sub_self, ← List.head?_eq_getElem?]
          have hwE : wordAt (pre ++ pat ++ post) (pre.length + pat.length) = false := by
            cases hph : post.head? with
            | none =>
              rw [wordAt_eq_of_none (by rw [hposthead, hph])]
            | some z =>
              rw [wordAt_eq_of_getElem (by rw [hposthead, hph])]
              exact hpost z hph
          obtain ⟨k, hk⟩ : ∃ k, pre.length + pat.length = k + 1 :=
            ⟨pre.length + pat.length - 1, by omega⟩
          have h1 : wordAt (pre ++ pat ++ post) k = true := by
            have hke : k = pre.length + pat.length - 1 := by omega
            rw [hke, wordAt_eq_of_getElem hlastpat]
            exact hdw
          have h2 : wordAt (pre ++ pat ++ post) (k + 1) = false := by
            rw [← hk]
            exact hwE
          rw [hk, wordBoundary_succ, h1, h2]
          rfl
        simp only [matchAt]
        rw [hsub, hbI, hbE, beq_self_eq_true]
        rfl

/-- C3 witness: a concrete whole-word decomposition of
`"there was a fire"` around `"fire"`, obtained through the
characterisation, plus the classifier-to-search link at that text. -/
theorem whole_word_matching_witness :
    ("fire" ∈ URGENT_KEYWORDS ∧
      searchWholeWord (lowerList "there was a fire") "fire".toList = true) ∧
    ∃ pre post, "there was a fire".toList = pre ++ "fire".toList ++ post ∧
      (∀ x, pre.getLast? = some x → isWordChar x = false) ∧
      (∀ x, post.head? = some x → isWordChar x = false) :=
  ⟨whole_word_matching.1 "there was a fire" "fire" (by decide),
   (whole_word_matching.2.1 "there was a fire".toList "fire".toList 'f' 'e'
      (by decide) (by decide) (by decide) (by decide)).mp (by decide)⟩

/-- C6: the per-row keyword list is deduplicated: it has no duplicates,
contains exactly the keywords matched in some field, and every matched
keyword is reported exactly once. -/
theorem keyword_dedup (row : ComplaintRecord) :
    (flag_urgent_row row).urgent_keywords_found.Nodup ∧
    (∀ kw, kw ∈ (flag_urgent_row row).urgent_keywords_found ↔ kw ∈ rowMatches row) ∧
    (∀ kw, kw ∈ rowMatches row →
      (flag_urgent_row row).urgent_keywords_found.count kw = 1) := by
  rw [flag_urgent_row]
  by_cases hE : (rowMatches row).isEmpty = true
  · have hnil : rowMatches row = [] := by simpa [List.isEmpty_iff] using hE
    rw [if_pos hE]
    refine ⟨List.nodup_nil, ?_, ?_⟩
    · intro kw
      rw [hnil]
    · intro kw hm
      rw [hnil] at hm
      simp at hm
  · rw [if_neg hE]
    refine ⟨List.nodup_dedup _, ?_, ?_⟩
    · intro kw
      exact List.mem_dedup
    · intro kw hm
      exact List.count_eq_one_of_mem (List.nodup_dedup _) (List.mem_dedup.mpr hm)

/-- C6 witness: a complaint mentioning `"gas leak"` in two fields collects
it twice but reports it once. -/
theorem keyword_dedup_witness :
    (rowMatches gasRow).count "gas leak" = 2 ∧
    (flag_urgent_row gasRow).urgent_keywords_found.count "gas leak" = 1 :=
  ⟨by decide, (keyword_dedup gasRow).2.2 "gas leak" (by decide)⟩

/-- C8: an absent text field behaves exactly like an empty one, and a
complaint whose fields are all absent or all empty is not urgent and has
no matched keywords; the classifier is a total function. -/
theorem absent_fields_neutral (row : ComplaintRecord) :
    flag_urgent_row { row with descriptor := none } =
      flag_urgent_row { row with descriptor := some "" } ∧
    flag_urgent_row { row with complaint_type := none } =
      flag_urgent_row { row with complaint_type := some "" } ∧
    flag_urgent_row { row with resolution_description := none } =
      flag_urgent_row { row with resolution_description := some "" } ∧
    flag_urgent_row ⟨none, none, none⟩ = ⟨false, []⟩ ∧
    flag_urgent_row ⟨some "", some "", some ""⟩ = ⟨false, []⟩ :=
  ⟨rfl, rfl, rfl, rfl, rfl⟩

/-! ## Theorems about the briefing agent ranking -/

/-- C9 evaluated at a failing input: no column named `urgency_score` exists
in the flagged dataframe, so even for an input containing an urgent
complaint, `get_today_urgent_complaints` hits the `KeyError` path and
returns the empty list instead of the top-5 urgent complaints. -/
theorem urgency_score_column_missing :
    "urgency_score" ∉ flag_urgent_output_columns ingestion_columns ∧
    (flag_urgent_row urgentRow).is_urgent = true ∧
    get_today_urgent_complaints [urgentRow] = [] :=
  ⟨by decide, by decide, rfl⟩

end QualityGuard
